import Mathlib

/-!
Shallow embedding of the Orbit API token-aggregation endpoint
(`api/tokens/[address].ts`): request validation (`handler`) and the
two-stage fetch-and-merge (`fetchTokens`).

Modelling conventions:
* JS `bigint` raw balances are modelled as `Nat` (upstream raw balances are
  unsigned smallest-unit amounts; `BigInt` division on non-negative values
  truncates exactly like `Nat` division).
* JS `number` prices are modelled as `ℚ`; `Number()` applied to a `BigInt`
  quotient is modelled as the exact cast into `ℚ` (exact whenever the
  quotient is below 2^53; the claims under study are in that range).
* The insertion-ordered JS object `mintAndTotalBalance` is modelled as an
  association list: assigning to an existing key updates it in place,
  assigning to a fresh key appends it.
* The network is an oracle: the holdings call is a given
  `Except String HoldingsResponse` (the `String` being the status text of a
  failed response) and the search endpoint is a function from the value of
  the `query` parameter to `Except String (List SearchToken)`.  `fetchTokens`
  returns, alongside its result, the trace of search queries it issued.
-/

/-- The hard-coded native-asset (SOL) mint address. -/
def SOL_MINT : String := "So11111111111111111111111111111111111111112"

/-- Shape of the upstream holdings response: a top-level native raw balance
and, per mint, the list of raw per-account balances. -/
structure HoldingsResponse where
  amount : Nat
  tokens : List (String × List Nat)
deriving Repr

/-- 24h stats object of a search record (`stats24h?: { priceChange? }`). -/
structure Stats24h where
  priceChange : Option ℚ
deriving Repr

/-- Shape of one upstream metadata-search record. -/
structure SearchToken where
  id : String
  name : String
  symbol : String
  decimals : Nat
  icon : Option String
  usdPrice : Option ℚ
  isVerified : Option Bool
  stats24h : Option Stats24h
deriving Repr

/-- Output record (`TokenData` in the source). -/
structure TokenData where
  mint : String
  amount : Nat
  name : String
  symbol : String
  icon : Option String
  decimals : Nat
  usdPriceUnit : Option ℚ
  usdValue : Option ℚ
  jupiterIsVerified : Bool
  priceChange24hPercent : Option ℚ
deriving Repr

/-- `tokens.reduce((sum, token) => sum + BigInt(token.amount), 0n)`. -/
def sumAmounts (amounts : List Nat) : Nat :=
  amounts.foldl (fun sum a => sum + a) 0

/-- JS object-property assignment to a key that is already present: the value
at that key is replaced in place (the key keeps its position). -/
def updateValue (m : List (String × Nat)) (mint : String) (v : Nat) :
    List (String × Nat) :=
  match m with
  | [] => []
  | (a, b) :: rest =>
    if a = mint then (a, b + v) :: rest else (a, b) :: updateValue rest mint v

/-- `mintAndTotalBalance[mint] = (mintAndTotalBalance[mint] || 0n) + v`:
updating an existing key adds to its value in place, a fresh key is
appended with the value. -/
def addBalance (m : List (String × Nat)) (mint : String) (v : Nat) :
    List (String × Nat) :=
  if (m.lookup mint).isSome then updateValue m mint v
  else m ++ [(mint, v)]

/-- Body of the `for (const [mint, tokens] of Object.entries(...))` loop:
sum the per-account amounts (`balanceToAdd`) and add the sum only when it is
strictly positive. -/
def balanceStep (m : List (String × Nat)) (entry : String × List Nat) :
    List (String × Nat) :=
  if 0 < sumAmounts entry.2 then addBalance m entry.1 (sumAmounts entry.2)
  else m

/-- The `mintAndTotalBalance` map built by `fetchTokens`: seeded with
`SOL_MINT ↦ holdings.amount`, then folded over the holdings entries. -/
def buildBalanceMap (h : HoldingsResponse) : List (String × Nat) :=
  h.tokens.foldl balanceStep [(SOL_MINT, h.amount)]

/-- `for (let i = 0; i < l.length; i += 100) { l.slice(i, i + 100) }`:
the loop runs `⌈l.length / 100⌉` times, the `i`-th iteration slicing the
elements at positions `[100·i, 100·i + 100)`. -/
def chunk100 (l : List α) : List (List α) :=
  (List.range ((l.length + 99) / 100)).map
    (fun i => (l.drop (100 * i)).take 100)

/-- `searchParams.append("query", mintsForBatch.join(","))`: the value of the
`query` parameter of one search call. -/
def mkQuery (batch : List String) : String :=
  String.intercalate "," batch

/-- Construction of one output record from one search record (the mapper in
`tokenDataBatch.map(...)`).  JS truthiness (`x || y`) maps `0`, `""`, `false`
and `undefined` to the fallback. -/
def mkTokenData (m : List (String × Nat)) (token : SearchToken) : TokenData :=
  let totalBalance := (m.lookup token.id).getD 0
  { mint := token.id
    amount := totalBalance
    name := if token.id = SOL_MINT then "Solana" else token.name
    symbol := token.symbol
    icon := match token.icon with
      | some s => if s = "" then none else some s
      | none => none
    decimals := token.decimals
    usdPriceUnit := match token.usdPrice with
      | some p => if p = 0 then none else some p
      | none => none
    usdValue := match token.usdPrice with
      | some p =>
        if p = 0 then none
        else some (((totalBalance / 10 ^ token.decimals : Nat) : ℚ) * p)
      | none => none
    jupiterIsVerified := (token.isVerified).getD false
    priceChange24hPercent := match token.stats24h with
      | some st => match st.priceChange with
        | some c => if c = 0 then none else some c
        | none => none
      | none => none }

/-- The batched search loop: issues one request per batch, in order; a failing
batch throws immediately (results of earlier batches are discarded).  Returns
the trace of issued query-parameter values together with the result. -/
def runSearches (m : List (String × Nat))
    (search : String → Except String (List SearchToken)) :
    List (List String) → List String × Except String (List TokenData)
  | [] => ([], Except.ok [])
  | b :: rest =>
    let q := mkQuery b
    match search q with
    | Except.error e => ([q], Except.error ("Error fetching token data: " ++ e))
    | Except.ok toks =>
      let tail := runSearches m search rest
      (q :: tail.1,
        match tail.2 with
        | Except.error e => Except.error e
        | Except.ok ts => Except.ok (toks.map (mkTokenData m) ++ ts))

/-- `fetchTokens`: holdings call, balance-map construction, batched metadata
search, merge.  First component: the trace of issued search queries. -/
def fetchTokens (holdings : Except String HoldingsResponse)
    (search : String → Except String (List SearchToken)) :
    List String × Except String (List TokenData) :=
  match holdings with
  | Except.error e =>
    ([], Except.error ("Error fetching token holdings: " ++ e))
  | Except.ok h =>
    let m := buildBalanceMap h
    let mintsToFetch := m.map Prod.fst
    runSearches m search (chunk100 mintsToFetch)

/-- The request parameter `req.query.address` of the Vercel handler:
absent, a single string, or an array of strings. -/
inductive QueryParam where
  | missing : QueryParam
  | single (s : String) : QueryParam
  | multiple (l : List String) : QueryParam
deriving Repr

/-- The inputs of `handler` that affect its observable behaviour. -/
structure Request where
  method : String
  address : QueryParam
  apiKey : Option String
deriving Repr

/-- Observable outcome of `handler`: HTTP status, error body, token body, and
the number of upstream calls performed (holdings call + search calls). -/
structure HandlerOutcome where
  status : Nat
  error : Option String
  tokens : Option (List TokenData)
  upstreamCalls : Nat
deriving Repr

/-- The request handler: method gate, address validation, credential check,
then `fetchTokens`.  `isAddr` abstracts the `isAddress` predicate of
`@solana/kit` (base58 format check); `!address` in JS is true both for an
absent parameter and for an empty single string. -/
def handler (isAddr : String → Bool) (req : Request)
    (holdings : Except String HoldingsResponse)
    (search : String → Except String (List SearchToken)) : HandlerOutcome :=
  if req.method = "OPTIONS" then ⟨204, none, none, 0⟩
  else if req.method ≠ "GET" then ⟨405, none, none, 0⟩
  else match req.address with
    | QueryParam.missing => ⟨400, some "Address parameter is required", none, 0⟩
    | QueryParam.multiple _ =>
      ⟨400, some "Address parameter must be a single value", none, 0⟩
    | QueryParam.single a =>
      if a = "" then ⟨400, some "Address parameter is required", none, 0⟩
      else if !(isAddr a) then ⟨400, some "Invalid address parameter", none, 0⟩
      else match req.apiKey with
        | none => ⟨500, some "JUPITER_API_KEY is not configured", none, 0⟩
        | some _ =>
          let r := fetchTokens holdings search
          match r.2 with
          | Except.ok toks => ⟨200, none, some toks, 1 + r.1.length⟩
          | Except.error _ =>
            ⟨500, some "Failed to fetch tokens", none, 1 + r.1.length⟩

example :
    buildBalanceMap ⟨5000000000, [("MINT1", [100, 200])]⟩ =
      [(SOL_MINT, 5000000000), ("MINT1", 300)] := by decide

example :
    buildBalanceMap ⟨0, [("MINT1", [0, 0])]⟩ = [(SOL_MINT, 0)] := by decide

/-! ### Association-list helper lemmas -/

lemma lookup_isSome_iff (m : List (String × Nat)) (k : String) :
    (m.lookup k).isSome ↔ k ∈ m.map Prod.fst := by
  induction m with
  | nil => simp [List.lookup]
  | cons p rest ih =>
    obtain ⟨a, b⟩ := p
    by_cases h : k = a
    · subst h; simp [List.lookup]
    · have hb : (k == a) = false := beq_eq_false_iff_ne.mpr h
      simp [List.lookup, hb, ih, h]

lemma map_fst_update (m : List (String × Nat)) (k : String) (v : Nat) :
    (updateValue m k v).map Prod.fst = m.map Prod.fst := by
  induction m with
  | nil => rfl
  | cons p rest ih =>
    obtain ⟨a, b⟩ := p
    by_cases h : a = k <;> simp [updateValue, h, ih]

lemma addBalance_keys (m : List (String × Nat)) (k : String) (v : Nat) :
    (addBalance m k v).map Prod.fst =
      if (m.lookup k).isSome then m.map Prod.fst
      else m.map Prod.fst ++ [k] := by
  unfold addBalance
  split
  · simp [map_fst_update]
  · simp

lemma addBalance_nodup (m : List (String × Nat)) (k : String) (v : Nat)
    (h : (m.map Prod.fst).Nodup) :
    ((addBalance m k v).map Prod.fst).Nodup := by
  rw [addBalance_keys]
  split
  · exact h
  · rename_i hs
    have hk : k ∉ m.map Prod.fst := by
      rw [← lookup_isSome_iff]; simpa using hs
    simp [List.nodup_append, h, hk]

lemma updateValue_pos (m : List (String × Nat)) (k : String) (v : Nat)
    (h : ∀ p ∈ m, p.1 ≠ SOL_MINT → 0 < p.2) :
    ∀ p ∈ updateValue m k v, p.1 ≠ SOL_MINT → 0 < p.2 := by
  induction m with
  | nil => simp [updateValue]
  | cons q rest ih =>
    obtain ⟨a, b⟩ := q
    by_cases hak : a = k
    · simp only [updateValue, if_pos hak]
      intro p hp hne
      rcases List.mem_cons.1 hp with rfl | hm
      · have hb0 : 0 < b := h (a, b) (by simp) hne
        show 0 < b + v
        omega
      · exact h p (List.mem_cons_of_mem _ hm) hne
    · simp only [updateValue, if_neg hak]
      intro p hp hne
      rcases List.mem_cons.1 hp with rfl | hm
      · exact h (a, b) (by simp) hne
      · exact ih (fun q hq => h q (List.mem_cons_of_mem _ hq)) p hm hne

lemma addBalance_pos (m : List (String × Nat)) (k : String) (v : Nat)
    (hv : 0 < v) (h : ∀ p ∈ m, p.1 ≠ SOL_MINT → 0 < p.2) :
    ∀ p ∈ addBalance m k v, p.1 ≠ SOL_MINT → 0 < p.2 := by
  unfold addBalance
  split
  · exact updateValue_pos m k v h
  · intro p hp hne
    rcases List.mem_append.1 hp with hm | hs
    · exact h p hm hne
    · simp at hs
      subst hs
      exact hv

lemma lookup_update_ne (m : List (String × Nat)) (k j : String) (v : Nat)
    (h : j ≠ k) :
    (updateValue m k v).lookup j = m.lookup j := by
  induction m with
  | nil => rfl
  | cons p rest ih =>
    obtain ⟨a, b⟩ := p
    by_cases hak : a = k
    · have hb : (j == k) = false := beq_eq_false_iff_ne.mpr h
      simp [updateValue, hak, List.lookup, hb]
    · cases hj : (j == a) <;> simp [updateValue, hak, List.lookup, hj, ih]

lemma lookup_append_single_ne (m : List (String × Nat)) (k j : String)
    (v : Nat) (h : j ≠ k) :
    ((m ++ [(k, v)]).lookup j) = m.lookup j := by
  induction m with
  | nil =>
    have hb : (j == k) = false := beq_eq_false_iff_ne.mpr h
    simp [List.lookup, hb]
  | cons p rest ih =>
    obtain ⟨a, b⟩ := p
    cases hj : (j == a) <;> simp [List.lookup, hj, ih]

lemma lookup_addBalance_ne (m : List (String × Nat)) (k j : String)
    (v : Nat) (h : j ≠ k) :
    (addBalance m k v).lookup j = m.lookup j := by
  unfold addBalance
  split
  · exact lookup_update_ne m k j v h
  · exact lookup_append_single_ne m k j v h

lemma lookup_addBalance_isSome (m : List (String × Nat)) (k j : String)
    (v : Nat) (h : (m.lookup j).isSome) :
    ((addBalance m k v).lookup j).isSome := by
  rw [lookup_isSome_iff] at h ⊢
  rw [addBalance_keys]
  split <;> simp [h]

/-! ### Invariants of the balance-map fold -/

lemma balanceStep_nodup (m : List (String × Nat)) (e : String × List Nat)
    (h : (m.map Prod.fst).Nodup) :
    ((balanceStep m e).map Prod.fst).Nodup := by
  unfold balanceStep
  split
  · exact addBalance_nodup _ _ _ h
  · exact h

lemma balanceStep_pos (m : List (String × Nat)) (e : String × List Nat)
    (h : ∀ p ∈ m, p.1 ≠ SOL_MINT → 0 < p.2) :
    ∀ p ∈ balanceStep m e, p.1 ≠ SOL_MINT → 0 < p.2 := by
  unfold balanceStep
  split
  · rename_i hpos
    exact addBalance_pos _ _ _ hpos h
  · exact h

lemma balanceStep_lookup_isSome (m : List (String × Nat))
    (e : String × List Nat) (j : String) (h : (m.lookup j).isSome) :
    ((balanceStep m e).lookup j).isSome := by
  unfold balanceStep
  split
  · exact lookup_addBalance_isSome _ _ _ _ h
  · exact h

lemma balanceStep_lookup_ne (m : List (String × Nat))
    (e : String × List Nat) (j : String) (h : j ≠ e.1) :
    (balanceStep m e).lookup j = m.lookup j := by
  unfold balanceStep
  split
  · exact lookup_addBalance_ne _ _ _ _ h
  · rfl

lemma balanceStep_mem (m : List (String × Nat)) (e : String × List Nat)
    (k : String) :
    k ∈ (balanceStep m e).map Prod.fst ↔
      k ∈ m.map Prod.fst ∨ (k = e.1 ∧ 0 < sumAmounts e.2) := by
  unfold balanceStep
  split
  · rename_i hpos
    rw [addBalance_keys]
    split
    · rename_i hsome
      rw [lookup_isSome_iff] at hsome
      constructor
      · exact fun hx => Or.inl hx
      · rintro (hx | ⟨rfl, _⟩)
        · exact hx
        · exact hsome
    · simp only [List.mem_append, List.mem_singleton]
      constructor
      · rintro (hx | rfl)
        · exact Or.inl hx
        · exact Or.inr ⟨rfl, hpos⟩
      · rintro (hx | ⟨rfl, _⟩)
        · exact Or.inl hx
        · exact Or.inr rfl
  · rename_i hnpos
    constructor
    · exact fun hx => Or.inl hx
    · rintro (hx | ⟨rfl, hp⟩)
      · exact hx
      · exact absurd hp hnpos

lemma foldl_balanceStep_nodup (l : List (String × List Nat)) :
    ∀ m : List (String × Nat), (m.map Prod.fst).Nodup →
      ((l.foldl balanceStep m).map Prod.fst).Nodup := by
  induction l with
  | nil => exact fun m h => h
  | cons e rest ih =>
    intro m h
    exact ih (balanceStep m e) (balanceStep_nodup m e h)

lemma foldl_balanceStep_pos (l : List (String × List Nat)) :
    ∀ m : List (String × Nat), (∀ p ∈ m, p.1 ≠ SOL_MINT → 0 < p.2) →
      ∀ p ∈ l.foldl balanceStep m, p.1 ≠ SOL_MINT → 0 < p.2 := by
  induction l with
  | nil => exact fun m h => h
  | cons e rest ih =>
    intro m h
    exact ih (balanceStep m e) (balanceStep_pos m e h)

lemma foldl_balanceStep_lookup_isSome (l : List (String × List Nat))
    (j : String) :
    ∀ m : List (String × Nat), (m.lookup j).isSome →
      ((l.foldl balanceStep m).lookup j).isSome := by
  induction l with
  | nil => exact fun m h => h
  | cons e rest ih =>
    intro m h
    exact ih (balanceStep m e) (balanceStep_lookup_isSome m e j h)

lemma foldl_balanceStep_lookup_ne (l : List (String × List Nat)) (j : String)
    (hj : j ∉ l.map Prod.fst) :
    ∀ m : List (String × Nat),
      (l.foldl balanceStep m).lookup j = m.lookup j := by
  induction l with
  | nil => exact fun m => rfl
  | cons e rest ih =>
    intro m
    simp only [List.map_cons, List.mem_cons] at hj
    push_neg at hj
    rw [List.foldl_cons, ih hj.2, balanceStep_lookup_ne m e j hj.1]

lemma foldl_balanceStep_mem (l : List (String × List Nat)) (k : String) :
    ∀ m : List (String × Nat),
      (k ∈ (l.foldl balanceStep m).map Prod.fst ↔
        k ∈ m.map Prod.fst ∨ ∃ ls, (k, ls) ∈ l ∧ 0 < sumAmounts ls) := by
  induction l with
  | nil => simp
  | cons e rest ih =>
    obtain ⟨a, ls0⟩ := e
    intro m
    rw [List.foldl_cons, ih (balanceStep m (a, ls0)), balanceStep_mem]
    simp only [List.mem_cons]
    constructor
    · rintro ((hx | ⟨rfl, hp⟩) | ⟨ls, hls, hp⟩)
      · exact Or.inl hx
      · exact Or.inr ⟨ls0, Or.inl rfl, hp⟩
      · exact Or.inr ⟨ls, Or.inr hls, hp⟩
    · rintro (hx | ⟨ls, hls | hls, hp⟩)
      · exact Or.inl (Or.inl hx)
      · rw [Prod.mk.injEq] at hls
        obtain ⟨rfl, rfl⟩ := hls
        exact Or.inl (Or.inr ⟨rfl, hp⟩)
      · exact Or.inr ⟨ls, hls, hp⟩

/-! ### Chunking lemmas -/

lemma chunk100_nil : chunk100 ([] : List α) = [] := by simp [chunk100]

lemma chunk100_cons_unfold (l : List α) (hl : l ≠ []) :
    chunk100 l = l.take 100 :: chunk100 (l.drop 100) := by
  unfold chunk100
  have hl1 : 1 ≤ l.length := by
    cases l with
    | nil => exact absurd rfl hl
    | cons a t => simp
  have hlen : (l.length + 99) / 100 = ((l.drop 100).length + 99) / 100 + 1 := by
    rw [List.length_drop]
    omega
  rw [hlen, List.range_succ_eq_map, List.map_cons]
  congr 1
  rw [List.map_map]
  apply List.map_congr_left
  intro i hi
  simp only [Function.comp_apply, List.drop_drop]
  congr 2
  omega

lemma chunk100_length (l : List α) :
    (chunk100 l).length = (l.length + 99) / 100 := by
  simp [chunk100]

lemma chunk100_le_100 (l : List α) : ∀ c ∈ chunk100 l, c.length ≤ 100 := by
  intro c hc
  rcases List.mem_map.1 hc with ⟨i, _, rfl⟩
  rw [List.length_take]
  exact min_le_left _ _

lemma chunk100_ne_nil (l : List α) : ∀ c ∈ chunk100 l, c ≠ [] := by
  intro c hc
  rcases List.mem_map.1 hc with ⟨i, hi, rfl⟩
  rw [List.mem_range] at hi
  intro hemp
  have h0 := congrArg List.length hemp
  simp only [List.length_take, List.length_drop, List.length_nil] at h0
  omega

lemma chunk100_flatten_aux (n : Nat) :
    ∀ l : List α, l.length ≤ n → (chunk100 l).flatten = l := by
  induction n with
  | zero =>
    intro l hl
    have hnil : l = [] := List.eq_nil_of_length_eq_zero (Nat.le_zero.mp hl)
    subst hnil
    simp [chunk100]
  | succ n ih =>
    intro l hl
    cases l with
    | nil => simp [chunk100]
    | cons a t =>
      rw [chunk100_cons_unfold _ (by simp), List.flatten_cons,
        ih ((a :: t).drop 100)
          (by simp only [List.length_drop, List.length_cons] at hl ⊢; omega),
        List.take_append_drop]

lemma chunk100_flatten (l : List α) : (chunk100 l).flatten = l :=
  chunk100_flatten_aux l.length l Nat.le.refl

lemma chunk100_len250 (l : List α) (hl : l.length = 250) :
    (chunk100 l).map List.length = [100, 100, 50] := by
  unfold chunk100
  rw [hl]
  norm_num
  simp [List.range_succ, List.length_take, List.length_drop, hl]

/-! ### Search-loop lemmas -/

lemma runSearches_all_ok (m : List (String × Nat))
    (search : String → Except String (List SearchToken))
    (resp : String → List SearchToken)
    (hsearch : ∀ q, search q = Except.ok (resp q)) :
    ∀ bs, runSearches m search bs =
      (bs.map mkQuery,
        Except.ok
          ((bs.map (fun b => resp (mkQuery b))).flatten.map
            (mkTokenData m))) := by
  intro bs
  induction bs with
  | nil => rfl
  | cons b rest ih =>
    simp [runSearches, hsearch (mkQuery b), ih]

lemma runSearches_trace_take (m : List (String × Nat))
    (search : String → Except String (List SearchToken))
    (bs : List (List String)) :
    ∃ k, (runSearches m search bs).1 = (bs.map mkQuery).take k := by
  induction bs with
  | nil => exact ⟨0, rfl⟩
  | cons b rest ih =>
    cases hs : search (mkQuery b) with
    | error e => exact ⟨1, by simp [runSearches, hs]⟩
    | ok toks =>
      obtain ⟨k, hk⟩ := ih
      exact ⟨k + 1, by simp [runSearches, hs, hk]⟩

lemma runSearches_error_of_mem (m : List (String × Nat))
    (search : String → Except String (List SearchToken))
    (bs : List (List String)) (b : List String) (hb : b ∈ bs) (e : String)
    (he : search (mkQuery b) = Except.error e) :
    ∃ e2, (runSearches m search bs).2 = Except.error e2 := by
  induction bs with
  | nil => exact absurd hb (List.not_mem_nil b)
  | cons c rest ih =>
    cases hs : search (mkQuery c) with
    | error e1 => exact ⟨"Error fetching token data: " ++ e1, by
        simp [runSearches, hs]⟩
    | ok toks =>
      rcases List.mem_cons.1 hb with rfl | hm
      · rw [hs] at he
        exact absurd he (by simp)
      · obtain ⟨e2, he2⟩ := ih hm
        exact ⟨e2, by simp [runSearches, hs, he2]⟩

/-- C3: when every upstream search call succeeds, the metadata stage issues
exactly `⌈n/100⌉` requests for the `n` balance-map identifiers: the issued
queries are, in order, the comma-joins of consecutive batches of at most 100
identifiers whose concatenation is the identifier list; a 250-identifier
list yields exactly 3 batches of sizes 100, 100 and 50, in that order. -/
theorem metadata_batching (h : HoldingsResponse)
    (search : String → Except String (List SearchToken))
    (resp : String → List SearchToken)
    (hsearch : ∀ q, search q = Except.ok (resp q)) :
    (fetchTokens (Except.ok h) search).1 =
        (chunk100 ((buildBalanceMap h).map Prod.fst)).map mkQuery ∧
    (fetchTokens (Except.ok h) search).1.length =
        (((buildBalanceMap h).map Prod.fst).length + 99) / 100 ∧
    (chunk100 ((buildBalanceMap h).map Prod.fst)).flatten =
        (buildBalanceMap h).map Prod.fst ∧
    (∀ c ∈ chunk100 ((buildBalanceMap h).map Prod.fst),
      c.length ≤ 100 ∧ c ≠ []) ∧
    (((buildBalanceMap h).map Prod.fst).length = 250 →
      (chunk100 ((buildBalanceMap h).map Prod.fst)).map List.length =
        [100, 100, 50]) := by
  have htr : (fetchTokens (Except.ok h) search).1 =
      (chunk100 ((buildBalanceMap h).map Prod.fst)).map mkQuery := by
    show (runSearches (buildBalanceMap h) search
        (chunk100 ((buildBalanceMap h).map Prod.fst))).1 = _
    rw [runSearches_all_ok (buildBalanceMap h) search resp hsearch]
  refine ⟨htr, ?_, chunk100_flatten _, ?_, fun h250 => chunk100_len250 _ h250⟩
  · rw [htr, List.length_map, chunk100_length]
  · exact fun c hc => ⟨chunk100_le_100 _ c hc, chunk100_ne_nil _ c hc⟩

theorem metadata_batching_witness :
    (fetchTokens (Except.ok ⟨5, []⟩)
        (fun _ => Except.ok ([] : List SearchToken))).1 =
      (chunk100 ((buildBalanceMap ⟨5, []⟩).map Prod.fst)).map mkQuery :=
  (metadata_batching ⟨5, []⟩ (fun _ => Except.ok []) (fun _ => [])
    (fun _ => rfl)).1

/-- C4: a failed holdings call makes the whole aggregation return the
holdings error; a failed metadata batch call (one of the planned batches)
makes the whole aggregation return an error, whatever other batches did; the
issued search queries are always a prefix of the planned batch queries (so a
failed query is never retried and nothing is issued past the first failure);
and whenever the fetch fails the handler returns no token list at all. -/
theorem upstream_failure_aborts
    (search : String → Except String (List SearchToken)) :
    (∀ e, (fetchTokens (Except.error e) search).2 =
        Except.error ("Error fetching token holdings: " ++ e)) ∧
    (∀ h : HoldingsResponse,
      ∀ b ∈ chunk100 ((buildBalanceMap h).map Prod.fst), ∀ e,
        search (mkQuery b) = Except.error e →
          ∃ e2, (fetchTokens (Except.ok h) search).2 = Except.error e2) ∧
    (∀ h : HoldingsResponse, ∃ k, (fetchTokens (Except.ok h) search).1 =
        ((chunk100 ((buildBalanceMap h).map Prod.fst)).map mkQuery).take k) ∧
    (∀ (isAddr : String → Bool) (req : Request)
        (holdings : Except String HoldingsResponse) (e : String),
      (fetchTokens holdings search).2 = Except.error e →
        (handler isAddr req holdings search).tokens = none) ∧
    (∀ (isAddr : String → Bool) (a k : String)
        (holdings : Except String HoldingsResponse) (e : String),
      isAddr a = true → a ≠ "" →
      (fetchTokens holdings search).2 = Except.error e →
        (handler isAddr ⟨"GET", QueryParam.single a, some k⟩ holdings
            search).status = 500 ∧
        (handler isAddr ⟨"GET", QueryParam.single a, some k⟩ holdings
            search).error = some "Failed to fetch tokens" ∧
        (handler isAddr ⟨"GET", QueryParam.single a, some k⟩ holdings
            search).tokens = none) := by
  refine ⟨fun e => rfl, ?_, ?_, ?_, ?_⟩
  · intro h b hb e he
    exact runSearches_error_of_mem _ search _ b hb e he
  · intro h
    exact runSearches_trace_take _ search _
  · intro isAddr req holdings e he
    unfold handler
    dsimp only
    repeat' split
    all_goals try rfl
    all_goals simp_all
  · intro isAddr a k holdings e hfa hane he
    refine ⟨?_, ?_, ?_⟩ <;> simp [handler, hfa, hane, he]

theorem upstream_failure_aborts_witness :
    (∃ e2, (fetchTokens (Except.ok ⟨0, []⟩)
        (fun _ => Except.error "Internal Server Error")).2 =
      Except.error e2) ∧
    (handler (fun _ => true) ⟨"GET", QueryParam.single "x", some "k"⟩
        (Except.ok ⟨0, []⟩)
        (fun _ => Except.error "Internal Server Error")).tokens = none ∧
    (handler (fun _ => true) ⟨"GET", QueryParam.single "x", some "k"⟩
        (Except.ok ⟨0, []⟩)
        (fun _ => Except.error "Internal Server Error")).status = 500 :=
  ⟨(upstream_failure_aborts (fun _ => Except.error "Internal Server Error")).2.1
      ⟨0, []⟩ [SOL_MINT] (by decide) "Internal Server Error" rfl,
   (upstream_failure_aborts (fun _ => Except.error "Internal Server Error")).2.2.2.1
      (fun _ => true) ⟨"GET", QueryParam.single "x", some "k"⟩
      (Except.ok ⟨0, []⟩)
      "Error fetching token data: Internal Server Error" rfl,
   ((upstream_failure_aborts (fun _ => Except.error "Internal Server Error")).2.2.2.2
      (fun _ => true) "x" "k" (Except.ok ⟨0, []⟩)
      "Error fetching token data: Internal Server Error" rfl (by decide)
      rfl).1⟩

/-- C5: the output sequence is driven by the metadata results: with all batch
calls succeeding, the result is the list of batch-response records mapped
through record construction — so each metadata record yields exactly one
Token Record carrying its id; a record whose id is absent from the balance
map gets amount 0; and an identifier of the balance map that no batch
response mentions yields no record at all. -/
theorem output_driven_by_metadata (h : HoldingsResponse)
    (search : String → Except String (List SearchToken))
    (resp : String → List SearchToken)
    (hsearch : ∀ q, search q = Except.ok (resp q)) :
    (fetchTokens (Except.ok h) search).2 =
      Except.ok
        (((chunk100 ((buildBalanceMap h).map Prod.fst)).map
            (fun b => resp (mkQuery b))).flatten.map
          (mkTokenData (buildBalanceMap h))) ∧
    (∀ rs : List SearchToken, ∀ t ∈ rs.map (mkTokenData (buildBalanceMap h)),
      ∃ s ∈ rs, t = mkTokenData (buildBalanceMap h) s ∧ t.mint = s.id) ∧
    (∀ s : SearchToken, (buildBalanceMap h).lookup s.id = none →
      (mkTokenData (buildBalanceMap h) s).amount = 0) ∧
    (∀ k, (∀ s ∈ ((chunk100 ((buildBalanceMap h).map Prod.fst)).map
          (fun b => resp (mkQuery b))).flatten, s.id ≠ k) →
      ∀ t ∈ ((chunk100 ((buildBalanceMap h).map Prod.fst)).map
          (fun b => resp (mkQuery b))).flatten.map
            (mkTokenData (buildBalanceMap h)),
        t.mint ≠ k) := by
  refine ⟨?_, ?_, ?_, ?_⟩
  · show (runSearches (buildBalanceMap h) search
        (chunk100 ((buildBalanceMap h).map Prod.fst))).2 = _
    rw [runSearches_all_ok (buildBalanceMap h) search resp hsearch]
  · intro rs t ht
    rcases List.mem_map.1 ht with ⟨s, hs, rfl⟩
    exact ⟨s, hs, rfl, rfl⟩
  · intro s hnone
    show ((buildBalanceMap h).lookup s.id).getD 0 = 0
    rw [hnone]
    rfl
  · intro k hk t ht
    rcases List.mem_map.1 ht with ⟨s, hs, rfl⟩
    exact hk s hs

theorem output_driven_by_metadata_witness :
    (fetchTokens (Except.ok ⟨9, []⟩)
        (fun _ => Except.ok ([] : List SearchToken))).2 =
      Except.ok
        (((chunk100 ((buildBalanceMap ⟨9, []⟩).map Prod.fst)).map
            (fun _ => ([] : List SearchToken))).flatten.map
          (mkTokenData (buildBalanceMap ⟨9, []⟩))) ∧
    (mkTokenData (buildBalanceMap ⟨9, []⟩)
        ⟨"ZZZ", "z", "Z", 0, none, none, none, none⟩).amount = 0 :=
  ⟨(output_driven_by_metadata ⟨9, []⟩ (fun _ => Except.ok []) (fun _ => [])
      (fun _ => rfl)).1,
   (output_driven_by_metadata ⟨9, []⟩ (fun _ => Except.ok []) (fun _ => [])
      (fun _ => rfl)).2.2.1
      ⟨"ZZZ", "z", "Z", 0, none, none, none, none⟩ (by decide)⟩

/-- C6: deterministic output order: the issued queries follow the chunked
identifier-list order, and the output records' mints are the concatenation,
batch by batch in issue order, of each batch response's ids in upstream
response order. -/
theorem output_order (h : HoldingsResponse)
    (search : String → Except String (List SearchToken))
    (resp : String → List SearchToken)
    (hsearch : ∀ q, search q = Except.ok (resp q)) :
    (fetchTokens (Except.ok h) search).1 =
        (chunk100 ((buildBalanceMap h).map Prod.fst)).map mkQuery ∧
    ∃ out, (fetchTokens (Except.ok h) search).2 = Except.ok out ∧
      out.map TokenData.mint =
        ((chunk100 ((buildBalanceMap h).map Prod.fst)).map
          (fun b => (resp (mkQuery b)).map SearchToken.id)).flatten := by
  have hall := runSearches_all_ok (buildBalanceMap h) search resp hsearch
    (chunk100 ((buildBalanceMap h).map Prod.fst))
  constructor
  · show (runSearches (buildBalanceMap h) search
        (chunk100 ((buildBalanceMap h).map Prod.fst))).1 = _
    rw [hall]
  · refine ⟨((chunk100 ((buildBalanceMap h).map Prod.fst)).map
        (fun b => resp (mkQuery b))).flatten.map
          (mkTokenData (buildBalanceMap h)), ?_, ?_⟩
    · show (runSearches (buildBalanceMap h) search
          (chunk100 ((buildBalanceMap h).map Prod.fst))).2 = _
      rw [hall]
    · simp only [List.map_flatten, List.map_map]
      congr 1
      apply List.map_congr_left
      intro b hb
      simp only [Function.comp_apply, List.map_map]
      rfl

theorem output_order_witness :
    (fetchTokens (Except.ok ⟨11, []⟩)
        (fun _ => Except.ok ([] : List SearchToken))).1 =
      (chunk100 ((buildBalanceMap ⟨11, []⟩).map Prod.fst)).map mkQuery :=
  (output_order ⟨11, []⟩ (fun _ => Except.ok []) (fun _ => [])
    (fun _ => rfl)).1

/-- C1: with an available (truthy) upstream price, the record's usdValue is
the truncating integer quotient `amount / 10 ^ decimals` — computed on the
arbitrary-precision balance before any multiplication — times the price; in
particular amount 1500000 with 6 decimals and price 2 gives 1 · 2 = 2, not
3. -/
theorem usdValue_truncating_division (m : List (String × Nat))
    (s : SearchToken) (p : ℚ) (hp : s.usdPrice = some p) (hp0 : p ≠ 0) :
    (mkTokenData m s).usdValue =
      some (((((m.lookup s.id).getD 0) / 10 ^ s.decimals : Nat) : ℚ) * p) ∧
    ((m.lookup s.id).getD 0 = 1500000 → s.decimals = 6 → p = 2 →
      (mkTokenData m s).usdValue = some 2) := by
  have h1 : (mkTokenData m s).usdValue =
      some (((((m.lookup s.id).getD 0) / 10 ^ s.decimals : Nat) : ℚ) * p) := by
    simp [mkTokenData, hp, hp0]
  refine ⟨h1, fun ha hd hp2 => ?_⟩
  rw [h1, ha, hd, hp2]
  norm_num

theorem usdValue_truncating_division_witness :
    (mkTokenData [("M", 1500000)]
        ⟨"M", "Token", "TKN", 6, none, some 2, none, none⟩).usdValue =
      some 2 :=
  (usdValue_truncating_division [("M", 1500000)]
      ⟨"M", "Token", "TKN", 6, none, some 2, none, none⟩ 2 rfl
      (by decide)).2 rfl rfl rfl

/-- C7: on a GET request, a missing address parameter, an array-valued
address parameter, and a single value failing the address-format predicate
each yield status 400 with an error body, no token list, and zero upstream
calls. -/
theorem validator_rejects_without_network (isAddr : String → Bool)
    (req : Request) (holdings : Except String HoldingsResponse)
    (search : String → Except String (List SearchToken))
    (hm : req.method = "GET") :
    (req.address = QueryParam.missing →
      (handler isAddr req holdings search).status = 400 ∧
      (handler isAddr req holdings search).error.isSome ∧
      (handler isAddr req holdings search).tokens = none ∧
      (handler isAddr req holdings search).upstreamCalls = 0) ∧
    (∀ l, req.address = QueryParam.multiple l →
      (handler isAddr req holdings search).status = 400 ∧
      (handler isAddr req holdings search).error.isSome ∧
      (handler isAddr req holdings search).tokens = none ∧
      (handler isAddr req holdings search).upstreamCalls = 0) ∧
    (∀ a, req.address = QueryParam.single a → isAddr a = false →
      (handler isAddr req holdings search).status = 400 ∧
      (handler isAddr req holdings search).error.isSome ∧
      (handler isAddr req holdings search).tokens = none ∧
      (handler isAddr req holdings search).upstreamCalls = 0) := by
  obtain ⟨method, address, apiKey⟩ := req
  cases hm
  refine ⟨?_, ?_, ?_⟩
  · intro ha
    cases ha
    exact ⟨rfl, rfl, rfl, rfl⟩
  · intro l ha
    cases ha
    exact ⟨rfl, rfl, rfl, rfl⟩
  · intro a ha hfa
    cases ha
    by_cases hae : a = ""
    · subst hae
      exact ⟨rfl, rfl, rfl, rfl⟩
    · refine ⟨?_, ?_, ?_, ?_⟩ <;> simp [handler, hae, hfa]

theorem validator_rejects_without_network_witness :
    (handler (fun _ => false)
        ⟨"GET", QueryParam.single "bad", some "k"⟩
        (Except.ok ⟨0, []⟩) (fun _ => Except.ok [])).status = 400 ∧
    (handler (fun _ => false)
        ⟨"GET", QueryParam.single "bad", some "k"⟩
        (Except.ok ⟨0, []⟩) (fun _ => Except.ok [])).error.isSome ∧
    (handler (fun _ => false)
        ⟨"GET", QueryParam.single "bad", some "k"⟩
        (Except.ok ⟨0, []⟩) (fun _ => Except.ok [])).tokens = none ∧
    (handler (fun _ => false)
        ⟨"GET", QueryParam.single "bad", some "k"⟩
        (Except.ok ⟨0, []⟩) (fun _ => Except.ok [])).upstreamCalls = 0 :=
  validator_rejects_without_network (fun _ => false)
    ⟨"GET", QueryParam.single "bad", some "k"⟩ (Except.ok ⟨0, []⟩)
    (fun _ => Except.ok []) rfl |>.2.2 "bad" rfl rfl

/-- C8: the native mint's record name is always the fixed display name
"Solana", whatever name the metadata search returned; every other record
keeps the upstream metadata name. -/
theorem native_name_override (m : List (String × Nat)) (s : SearchToken) :
    (s.id = SOL_MINT → (mkTokenData m s).name = "Solana") ∧
    (s.id ≠ SOL_MINT → (mkTokenData m s).name = s.name) := by
  constructor <;> intro hx <;> simp [mkTokenData, hx]

theorem native_name_override_witness :
    (mkTokenData []
        ⟨SOL_MINT, "Wrapped SOL", "SOL", 9, none, none, none, none⟩).name =
      "Solana" ∧
    (mkTokenData []
        ⟨"OTHER", "Other", "OTH", 0, none, none, none, none⟩).name =
      "Other" :=
  ⟨(native_name_override []
      ⟨SOL_MINT, "Wrapped SOL", "SOL", 9, none, none, none, none⟩).1 rfl,
   (native_name_override []
      ⟨"OTHER", "Other", "OTH", 0, none, none, none, none⟩).2 (by decide)⟩

/-- C9: optional metadata fields are mapped by truthiness, not presence: a
present usdPrice equal to 0 yields usdPriceUnit and usdValue both null; a
present 24h priceChange of 0 yields priceChange24hPercent null; an
empty-string icon yields icon null; and isVerified omitted or false both
yield jupiterIsVerified false. -/
theorem truthiness_field_mapping (m : List (String × Nat))
    (s : SearchToken) :
    (s.usdPrice = some 0 →
      (mkTokenData m s).usdPriceUnit = none ∧
      (mkTokenData m s).usdValue = none) ∧
    (∀ st, s.stats24h = some st → st.priceChange = some 0 →
      (mkTokenData m s).priceChange24hPercent = none) ∧
    (s.icon = some "" → (mkTokenData m s).icon = none) ∧
    (s.isVerified = none ∨ s.isVerified = some false →
      (mkTokenData m s).jupiterIsVerified = false) := by
  refine ⟨?_, ?_, ?_, ?_⟩
  · intro hp
    constructor <;> simp [mkTokenData, hp]
  · intro st hst hpc
    simp [mkTokenData, hst, hpc]
  · intro hi
    simp [mkTokenData, hi]
  · rintro (hv | hv) <;> simp [mkTokenData, hv]

theorem truthiness_field_mapping_witness :
    ((mkTokenData [] ⟨"A", "a", "A", 0, some "", some 0, none,
        some ⟨some 0⟩⟩).usdPriceUnit = none ∧
      (mkTokenData [] ⟨"A", "a", "A", 0, some "", some 0, none,
        some ⟨some 0⟩⟩).usdValue = none) ∧
    (mkTokenData [] ⟨"A", "a", "A", 0, some "", some 0, none,
        some ⟨some 0⟩⟩).priceChange24hPercent = none ∧
    (mkTokenData [] ⟨"A", "a", "A", 0, some "", some 0, none,
        some ⟨some 0⟩⟩).icon = none ∧
    (mkTokenData [] ⟨"A", "a", "A", 0, some "", some 0, none,
        some ⟨some 0⟩⟩).jupiterIsVerified = false :=
  ⟨(truthiness_field_mapping []
      ⟨"A", "a", "A", 0, some "", some 0, none, some ⟨some 0⟩⟩).1 rfl,
   (truthiness_field_mapping []
      ⟨"A", "a", "A", 0, some "", some 0, none, some ⟨some 0⟩⟩).2.1
      ⟨some 0⟩ rfl rfl,
   (truthiness_field_mapping []
      ⟨"A", "a", "A", 0, some "", some 0, none, some ⟨some 0⟩⟩).2.2.1 rfl,
   (truthiness_field_mapping []
      ⟨"A", "a", "A", 0, some "", some 0, none, some ⟨some 0⟩⟩).2.2.2
      (Or.inl rfl)⟩

/-!
### The second source version of the aggregation

Independent transcription of `fetchTokens` as it appears in the second
source file (the unnamed earlier revision of the endpoint), for the
equivalence claim.
-/

/-- The hard-coded native-asset mint of the second source version. -/
def SOL_MINT_V0 : String := "So11111111111111111111111111111111111111112"

def sumAmountsV0 (amounts : List Nat) : Nat :=
  amounts.foldl (fun sum a => sum + a) 0

def updateValueV0 (m : List (String × Nat)) (mint : String) (v : Nat) :
    List (String × Nat) :=
  match m with
  | [] => []
  | (a, b) :: rest =>
    if a = mint then (a, b + v) :: rest
    else (a, b) :: updateValueV0 rest mint v

def addBalanceV0 (m : List (String × Nat)) (mint : String) (v : Nat) :
    List (String × Nat) :=
  if (m.lookup mint).isSome then updateValueV0 m mint v
  else m ++ [(mint, v)]

def balanceStepV0 (m : List (String × Nat)) (entry : String × List Nat) :
    List (String × Nat) :=
  if 0 < sumAmountsV0 entry.2 then addBalanceV0 m entry.1 (sumAmountsV0 entry.2)
  else m

def buildBalanceMapV0 (h : HoldingsResponse) : List (String × Nat) :=
  h.tokens.foldl balanceStepV0 [(SOL_MINT_V0, h.amount)]

def chunk100V0 (l : List α) : List (List α) :=
  (List.range ((l.length + 99) / 100)).map
    (fun i => (l.drop (100 * i)).take 100)

def mkQueryV0 (batch : List String) : String :=
  String.intercalate "," batch

def mkTokenDataV0 (m : List (String × Nat)) (token : SearchToken) :
    TokenData :=
  let totalBalance := (m.lookup token.id).getD 0
  { mint := token.id
    amount := totalBalance
    name := if token.id = SOL_MINT_V0 then "Solana" else token.name
    symbol := token.symbol
    icon := match token.icon with
      | some s => if s = "" then none else some s
      | none => none
    decimals := token.decimals
    usdPriceUnit := match token.usdPrice with
      | some p => if p = 0 then none else some p
      | none => none
    usdValue := match token.usdPrice with
      | some p =>
        if p = 0 then none
        else some (((totalBalance / 10 ^ token.decimals : Nat) : ℚ) * p)
      | none => none
    jupiterIsVerified := (token.isVerified).getD false
    priceChange24hPercent := match token.stats24h with
      | some st => match st.priceChange with
        | some c => if c = 0 then none else some c
        | none => none
      | none => none }

def runSearchesV0 (m : List (String × Nat))
    (search : String → Except String (List SearchToken)) :
    List (List String) → List String × Except String (List TokenData)
  | [] => ([], Except.ok [])
  | b :: rest =>
    let q := mkQueryV0 b
    match search q with
    | Except.error e => ([q], Except.error ("Error fetching token data: " ++ e))
    | Except.ok toks =>
      let tail := runSearchesV0 m search rest
      (q :: tail.1,
        match tail.2 with
        | Except.error e => Except.error e
        | Except.ok ts => Except.ok (toks.map (mkTokenDataV0 m) ++ ts))

def fetchTokensV0 (holdings : Except String HoldingsResponse)
    (search : String → Except String (List SearchToken)) :
    List String × Except String (List TokenData) :=
  match holdings with
  | Except.error e =>
    ([], Except.error ("Error fetching token holdings: " ++ e))
  | Except.ok h =>
    let m := buildBalanceMapV0 h
    let mintsToFetch := m.map Prod.fst
    runSearchesV0 m search (chunk100V0 mintsToFetch)

lemma updateValueV0_eq (m : List (String × Nat)) (k : String) (v : Nat) :
    updateValueV0 m k v = updateValue m k v := by
  induction m with
  | nil => rfl
  | cons p rest ih =>
    obtain ⟨a, b⟩ := p
    simp only [updateValueV0, updateValue, ih]

lemma addBalanceV0_eq (m : List (String × Nat)) (k : String) (v : Nat) :
    addBalanceV0 m k v = addBalance m k v := by
  unfold addBalanceV0 addBalance
  rw [updateValueV0_eq]

lemma balanceStepV0_eq (m : List (String × Nat)) (e : String × List Nat) :
    balanceStepV0 m e = balanceStep m e := by
  unfold balanceStepV0 balanceStep
  rw [addBalanceV0_eq]
  rfl

lemma buildBalanceMapV0_eq (h : HoldingsResponse) :
    buildBalanceMapV0 h = buildBalanceMap h := by
  unfold buildBalanceMapV0 buildBalanceMap
  congr 1
  funext m e
  exact balanceStepV0_eq m e

lemma chunk100V0_eq (l : List α) : chunk100V0 l = chunk100 l := rfl

lemma mkQueryV0_eq : mkQueryV0 = mkQuery := rfl

lemma mkTokenDataV0_eq : mkTokenDataV0 = mkTokenData := rfl

lemma runSearchesV0_eq (m : List (String × Nat))
    (search : String → Except String (List SearchToken))
    (bs : List (List String)) :
    runSearchesV0 m search bs = runSearches m search bs := by
  induction bs with
  | nil => rfl
  | cons b rest ih =>
    simp only [runSearchesV0, runSearches, mkQueryV0_eq, mkTokenDataV0_eq, ih]

/-- C10: the two source versions of `fetchTokens` compute the same function:
for every holdings result and every assignment of search responses, they
issue the same queries and return the same Token Record sequence (or the
same error). -/
theorem fetchTokens_versions_agree
    (holdings : Except String HoldingsResponse)
    (search : String → Except String (List SearchToken)) :
    fetchTokensV0 holdings search = fetchTokens holdings search := by
  unfold fetchTokensV0 fetchTokens
  cases holdings with
  | error e => rfl
  | ok h =>
    dsimp only
    rw [buildBalanceMapV0_eq, chunk100V0_eq, runSearchesV0_eq]

/-- C2-claim: the balance map has no duplicate identifier, every non-native
entry is strictly positive, the native identifier is present unconditionally
(with exactly the top-level raw balance when the holdings listing does not
itself mention the native mint), and a non-native identifier is present
exactly when some holdings entry for it has a strictly positive summed raw
amount. -/
theorem balanceMap_invariants (h : HoldingsResponse) :
    ((buildBalanceMap h).map Prod.fst).Nodup ∧
    (∀ p ∈ buildBalanceMap h, p.1 ≠ SOL_MINT → 0 < p.2) ∧
    ((buildBalanceMap h).lookup SOL_MINT).isSome ∧
    (SOL_MINT ∉ h.tokens.map Prod.fst →
      (buildBalanceMap h).lookup SOL_MINT = some h.amount) ∧
    (∀ k, k ≠ SOL_MINT →
      (k ∈ (buildBalanceMap h).map Prod.fst ↔
        ∃ ls, (k, ls) ∈ h.tokens ∧ 0 < sumAmounts ls)) := by
  unfold buildBalanceMap
  refine ⟨?_, ?_, ?_, ?_, ?_⟩
  · exact foldl_balanceStep_nodup _ _ (by simp)
  · exact foldl_balanceStep_pos _ _ (by simp)
  · exact foldl_balanceStep_lookup_isSome _ _ _ (by simp [List.lookup])
  · intro hni
    rw [foldl_balanceStep_lookup_ne _ _ hni]
    simp [List.lookup]
  · intro k hk
    rw [foldl_balanceStep_mem]
    simp [hk]

theorem balanceMap_invariants_witness :
    ((buildBalanceMap ⟨7, [("AAA", [0, 0]), ("BBB", [1, 2])]⟩).lookup SOL_MINT
      = some 7) ∧
    ("BBB" ∈
        (buildBalanceMap ⟨7, [("AAA", [0, 0]), ("BBB", [1, 2])]⟩).map Prod.fst ↔
      ∃ ls, ("BBB", ls) ∈ [("AAA", [0, 0]), ("BBB", [1, 2])] ∧
        0 < sumAmounts ls) ∧
    (0 : Nat) < 3 :=
  ⟨(balanceMap_invariants ⟨7, [("AAA", [0, 0]), ("BBB", [1, 2])]⟩).2.2.2.1
      (by decide),
   (balanceMap_invariants ⟨7, [("AAA", [0, 0]), ("BBB", [1, 2])]⟩).2.2.2.2
      "BBB" (by decide),
   (balanceMap_invariants ⟨7, [("AAA", [0, 0]), ("BBB", [1, 2])]⟩).2.1
      ("BBB", 3) (by decide) (by decide)⟩
